import Mathlib

/-!
# Verification of the sintesi signature-extraction / hashing / drift pipeline

Shallow embedding of the Rust core under scrutiny:

* crates/core/src/ast/hasher.rs   (SignatureHasher)
* crates/core/src/ast/analyzer.rs (normalize_text, SymbolExtractor)
* crates/core/src/ast/drift.rs    (DriftDetector, DriftResult)
* src/rust-core/src/ast_analyzer.rs (swc-based SignatureCollector)

Strings are modelled as Lean strings; the Rust regex passes used by
normalize_text are embedded as direct character-list transformations, one
per regex, with the same leftmost, non-overlapping replacement semantics as
regex::Regex::replace_all and str::replace.  Machine integers appearing in
SHA-256 are Nat with explicit reduction mod 2^32.  Bounded recursion is
expressed with a fuel argument equal to the input length; every step of the
corresponding Rust loop consumes at least one input character, so that fuel
is always sufficient and the functions compute the loop exactly.
-/

namespace Sintesi

/-- Test whether the second character list begins with the first, i.e. the
byte-wise test behind Rust str::starts_with for a literal pattern. -/
def charsStart : List Char → List Char → Bool
  | [], _ => true
  | _ :: _, [] => false
  | p :: ps, c :: cs => p == c && charsStart ps cs

/-- One scan of Rust str::replace: rewrite every leftmost, non-overlapping
occurrence of pat (nonempty) by repl.  Fuel is consumed one unit per input
character examined; with fuel = length of the input it computes the whole
replacement. -/
def replaceAllF (pat repl : List Char) : Nat → List Char → List Char
  | 0, s => s
  | _ + 1, [] => []
  | fuel + 1, c :: rest =>
    if charsStart pat (c :: rest) then
      repl ++ replaceAllF pat repl fuel (List.drop (pat.length - 1) rest)
    else
      c :: replaceAllF pat repl fuel rest

/-- Rust str::replace on character lists (patterns used here are nonempty). -/
def replaceAll (pat repl s : List Char) : List Char :=
  replaceAllF pat repl s.length s

/-- Whitespace as matched by the regex class \s on the ASCII inputs at hand
(space, tab, line feed, carriage return, vertical tab, form feed). -/
def isWsChar (c : Char) : Bool :=
  c == ' ' || c == '\t' || c == '\n' || c == '\r' || c == '\x0b' || c == '\x0c'

/-- Drop a leading run of whitespace characters. -/
def dropWs : List Char → List Char
  | [] => []
  | c :: rest => if isWsChar c then dropWs rest else c :: rest

/-- Regex \s+ -> " ": collapse every whitespace run to a single space
(analyzer.rs, regex `whitespace`). -/
def collapseWs : Nat → List Char → List Char
  | 0, s => s
  | _ + 1, [] => []
  | fuel + 1, c :: rest =>
    if isWsChar c then ' ' :: collapseWs fuel (dropWs rest)
    else c :: collapseWs fuel rest

/-- Skip to the next line feed, keeping it (the regex dot does not match a
line feed, so a line comment ends right before it). -/
def dropToNewline : List Char → List Char
  | [] => []
  | c :: rest => if c == '\n' then c :: rest else dropToNewline rest

/-- Regex `//.*` -> "": delete line comments (analyzer.rs,
regex `single_line_comment`). -/
def removeLineComments : Nat → List Char → List Char
  | 0, s => s
  | _ + 1, [] => []
  | fuel + 1, c :: rest =>
    if charsStart ['/', '/'] (c :: rest) then
      removeLineComments fuel (dropToNewline rest)
    else
      c :: removeLineComments fuel rest

/-- Scan for the closing star-slash of a block comment; returns the
remainder after it, or none when the comment never closes (in which case
the regex match fails and the opener is kept verbatim). -/
def blockClose : List Char → Option (List Char)
  | [] => none
  | c :: rest =>
    if charsStart ['*', '/'] (c :: rest) then some (List.drop 1 rest)
    else blockClose rest

/-- Regex slash-star [\s\S]*? star-slash -> "": delete block comments,
shortest match first (analyzer.rs, regex `multi_line_comment`). -/
def removeBlockComments : Nat → List Char → List Char
  | 0, s => s
  | _ + 1, [] => []
  | fuel + 1, c :: rest =>
    if charsStart ['/', '*'] (c :: rest) then
      match blockClose (List.drop 1 rest) with
      | some after => removeBlockComments fuel after
      | none => c :: removeBlockComments fuel rest
    else
      c :: removeBlockComments fuel rest

/-- Find the closing quote-paren-dot of an import path expression; the lazy
dot of the regex matches anything except a line feed, so the search fails at
the first line feed. -/
def importClose : List Char → Option (List Char)
  | [] => none
  | c :: rest =>
    if charsStart ['"', ')', '.'] (c :: rest) then some (List.drop 2 rest)
    else if c == '\n' then none
    else importClose rest

/-- The opening literal of the import-path regex. -/
def importOpen : List Char := ['i', 'm', 'p', 'o', 'r', 't', '(', '"']

/-- Regex import\(".*?"\)\. -> "": delete resolved type-level import path
segments (analyzer.rs, regex `import_paths`). -/
def removeImportSegments : Nat → List Char → List Char
  | 0, s => s
  | _ + 1, [] => []
  | fuel + 1, c :: rest =>
    if charsStart importOpen (c :: rest) then
      match importClose (List.drop 7 rest) with
      | some after => removeImportSegments fuel after
      | none => c :: removeImportSegments fuel rest
    else
      c :: removeImportSegments fuel rest

/-- Rust str::trim on character lists. -/
def trimChars (s : List Char) : List Char :=
  ((dropWs s).reverse |> dropWs).reverse

/-- Does needle occur as a contiguous substring of hay? -/
def subOccurs : List Char → List Char → Bool
  | pat, [] => charsStart pat []
  | pat, c :: rest => charsStart pat (c :: rest) || subOccurs pat rest

/-! ## SHA-256

The sha2 crate used by hasher.rs computes standard FIPS 180-4 SHA-256.
Words are Nat reduced mod 2^32; the message is the UTF-8 byte sequence of
the input string, as produced by Rust str::as_bytes. -/

/-- 2^32, the word modulus. -/
def m32 : Nat := 4294967296

/-- Addition mod 2^32. -/
def add32 (a b : Nat) : Nat := (a + b) % m32

/-- Right rotation of a 32-bit word (input already reduced mod 2^32). -/
def rotr32 (k x : Nat) : Nat :=
  (x >>> k) ||| ((x <<< (32 - k)) % m32)

/-- The big sigma-0 function of the compression rounds. -/
def bsig0 (x : Nat) : Nat := rotr32 2 x ^^^ rotr32 13 x ^^^ rotr32 22 x

/-- The big sigma-1 function of the compression rounds. -/
def bsig1 (x : Nat) : Nat := rotr32 6 x ^^^ rotr32 11 x ^^^ rotr32 25 x

/-- The small sigma-0 function of the message schedule. -/
def ssig0 (x : Nat) : Nat := rotr32 7 x ^^^ rotr32 18 x ^^^ (x >>> 3)

/-- The small sigma-1 function of the message schedule. -/
def ssig1 (x : Nat) : Nat := rotr32 17 x ^^^ rotr32 19 x ^^^ (x >>> 10)

/-- The choice function. -/
def ch32 (x y z : Nat) : Nat := (x &&& y) ^^^ ((x ^^^ (m32 - 1)) &&& z)

/-- The majority function. -/
def maj32 (x y z : Nat) : Nat := (x &&& y) ^^^ (x &&& z) ^^^ (y &&& z)

/-- The 64 round constants. -/
def sha256K : List Nat :=
  [1116352408, 1899447441, 3049323471, 3921009573,
   961987163, 1508970993, 2453635748, 2870763221,
   3624381080, 310598401, 607225278, 1426881987,
   1925078388, 2162078206, 2614888103, 3248222580,
   3835390401, 4022224774, 264347078, 604807628,
   770255983, 1249150122, 1555081692, 1996064986,
   2554220882, 2821834349, 2952996808, 3210313671,
   3336571891, 3584528711, 113926993, 338241895,
   666307205, 773529912, 1294757372, 1396182291,
   1695183700, 1986661051, 2177026350, 2456956037,
   2730485921, 2820302411, 3259730800, 3345764771,
   3516065817, 3600352804, 4094571909, 275423344,
   430227734, 506948616, 659060556, 883997877,
   958139571, 1322822218, 1537002063, 1747873779,
   1955562222, 2024104815, 2227730452, 2361852424,
   2428436474, 2756734187, 3204031479, 3329325298]

/-- The eight-word hash state. -/
structure Hash8 where
  a : Nat
  b : Nat
  c : Nat
  d : Nat
  e : Nat
  f : Nat
  g : Nat
  h : Nat

/-- The initial hash state. -/
def sha256H0 : Hash8 :=
  ⟨1779033703, 3144134277, 1013904242, 2773480762,
   1359893119, 2600822924, 528734635, 1541459225⟩

/-- The next message-schedule word, computed from the reversed schedule
built so far (head is the most recent word). -/
def nextW (wrev : List Nat) : Nat :=
  add32 (add32 (ssig1 (wrev.getD 1 0)) (wrev.getD 6 0))
        (add32 (ssig0 (wrev.getD 14 0)) (wrev.getD 15 0))

/-- Extend the reversed message schedule by n further words. -/
def extendW : Nat → List Nat → List Nat
  | 0, wrev => wrev
  | n + 1, wrev => extendW n (nextW wrev :: wrev)

/-- One compression round with combined value kw = k + w. -/
def round8 (st : Hash8) (kw : Nat) : Hash8 :=
  let t1 := add32 (add32 (add32 st.h (bsig1 st.e)) (ch32 st.e st.f st.g)) kw
  let t2 := add32 (bsig0 st.a) (maj32 st.a st.b st.c)
  ⟨add32 t1 t2, st.a, st.b, st.c, add32 st.d t1, st.e, st.f, st.g⟩

/-- Pack four bytes big-endian into a word. -/
def word4 (b0 b1 b2 b3 : Nat) : Nat := ((b0 * 256 + b1) * 256 + b2) * 256 + b3

/-- Group a byte list into big-endian 32-bit words. -/
def toWords : List Nat → List Nat
  | b0 :: b1 :: b2 :: b3 :: rest => word4 b0 b1 b2 b3 :: toWords rest
  | _ => []

/-- Process one padded 64-byte block. -/
def processBlock (st : Hash8) (block : List Nat) : Hash8 :=
  let w := (extendW 48 (toWords block).reverse).reverse
  let st2 := (sha256K.zip w).foldl (fun s kw => round8 s (add32 kw.1 kw.2)) st
  ⟨add32 st.a st2.a, add32 st.b st2.b, add32 st.c st2.c, add32 st.d st2.d,
   add32 st.e st2.e, add32 st.f st2.f, add32 st.g st2.g, add32 st.h st2.h⟩

/-- Split a byte list into 64-byte blocks; fuel bounds the number of blocks
and fuel = length suffices. -/
def toBlocks : Nat → List Nat → List (List Nat)
  | 0, _ => []
  | _ + 1, [] => []
  | fuel + 1, l => List.take 64 l :: toBlocks fuel (List.drop 64 l)

/-- The 8-byte big-endian encoding of the bit length. -/
def lenBytes8 (n : Nat) : List Nat :=
  [n / 72057594037927936 % 256, n / 281474976710656 % 256,
   n / 1099511627776 % 256, n / 4294967296 % 256,
   n / 16777216 % 256, n / 65536 % 256, n / 256 % 256, n % 256]

/-- FIPS 180-4 padding: a 0x80 byte, zeros to 56 mod 64, then the bit
length, big-endian, in 8 bytes. -/
def padMsg (msg : List Nat) : List Nat :=
  let len := msg.length
  let zeros := (64 + 56 - (len + 1) % 64) % 64
  msg ++ 128 :: List.replicate zeros 0 ++ lenBytes8 (len * 8)

/-- The four big-endian bytes of a 32-bit word. -/
def wordBytes (w : Nat) : List Nat :=
  [w / 16777216 % 256, w / 65536 % 256, w / 256 % 256, w % 256]

/-- The 32 digest bytes of a SHA-256 computation over a byte list. -/
def sha256Bytes (msg : List Nat) : List Nat :=
  let p := padMsg msg
  let fin := (toBlocks p.length p).foldl processBlock sha256H0
  wordBytes fin.a ++ wordBytes fin.b ++ wordBytes fin.c ++ wordBytes fin.d ++
  wordBytes fin.e ++ wordBytes fin.f ++ wordBytes fin.g ++ wordBytes fin.h

/-- A lowercase hexadecimal digit, as emitted by the Rust x format. -/
def hexDigit (n : Nat) : Char :=
  if n < 10 then Char.ofNat (48 + n) else Char.ofNat (87 + n)

/-- The two lowercase hexadecimal digits of one byte. -/
def byteHex (b : Nat) : List Char := [hexDigit (b / 16 % 16), hexDigit (b % 16)]

/-- Render a byte list in lowercase hexadecimal. -/
def bytesToHex : List Nat → List Char
  | [] => []
  | b :: rest => byteHex b ++ bytesToHex rest

/-- The UTF-8 bytes of one character, as in Rust str::as_bytes. -/
def utf8Bytes (c : Char) : List Nat :=
  let n := c.toNat
  if n < 128 then [n]
  else if n < 2048 then [192 + n / 64, 128 + n % 64]
  else if n < 65536 then [224 + n / 4096, 128 + n / 64 % 64, 128 + n % 64]
  else [240 + n / 262144, 128 + n / 4096 % 64, 128 + n / 64 % 64, 128 + n % 64]

/-- The UTF-8 byte sequence of a string. -/
def strBytes (s : String) : List Nat :=
  s.data.foldr (fun c acc => utf8Bytes c ++ acc) []

/-- The lowercase hex SHA-256 digest of a string, i.e. what
format x of the sha2 digest of the UTF-8 bytes produces in hasher.rs. -/
def sha256hex (s : String) : String :=
  String.mk (bytesToHex (sha256Bytes (strBytes s)))

/-! ## Data model (crates/core/src/types.rs) -/

/-- SymbolType from types.rs. -/
inductive SymbolType where
  | Function
  | Class
  | Interface
  | TypeAlias
  | Enum
  | Variable
  | Const
deriving DecidableEq, Repr

/-- CodeSignature from types.rs. -/
structure CodeSignature where
  symbol_name : String
  symbol_type : SymbolType
  signature_text : String
  is_exported : Bool
deriving DecidableEq, Repr

/-- SignatureHash from hasher.rs; the timestamp is milliseconds since the
Unix epoch, taken from the system clock, so it is an explicit parameter of
the embedded hash function. -/
structure SignatureHash where
  hash : String
  signature : CodeSignature
  timestamp : Int
deriving Repr

/-- CodeRef from types.rs. -/
structure CodeRef where
  file_path : String
  symbol_name : String
deriving Repr

/-- Modelled from the spec: SintesiMapEntry is named by drift.rs but its
definition is not among the provided sources (types.rs carries only the
older DoctypeMapEntry form); the spec describes it as StoredLedgerEntry
with fields id, code_ref {file_path, symbol_name}, code_signature_hash,
code_signature_text (optional), doc_ref {file_path} and last_updated,
which also matches how drift.rs constructs it in its tests.  The numeric
last_updated field plays no role in any drift computation and is modelled
as an integer. -/
structure SintesiMapEntry where
  id : String
  code_ref : CodeRef
  code_signature_hash : String
  code_signature_text : Option String
  doc_ref_file_path : String
  last_updated : Int
deriving Repr

/-- DriftStatus from drift.rs. -/
inductive DriftStatus where
  | InSync
  | Drifted (old_hash : String) (new_hash : String)
  | NotTracked
  | Removed
deriving DecidableEq, Repr

/-- DriftResult from drift.rs; the HashMap of per-symbol statuses is
modelled as an association list in insertion order, with
HashMap::insert overwrite semantics embedded in insertStatus below. -/
structure DriftResult where
  total_symbols : Nat
  in_sync : Nat
  drifted : Nat
  not_tracked : Nat
  removed : Nat
  symbol_status : List (String × DriftStatus)
deriving Repr

/-! ## SignatureHasher (crates/core/src/ast/hasher.rs) -/

namespace SignatureHasher

/-- symbol_type_to_string from hasher.rs. -/
def symbol_type_to_string : SymbolType → String
  | .Function => "Function"
  | .Class => "Class"
  | .Interface => "Interface"
  | .TypeAlias => "TypeAlias"
  | .Enum => "Enum"
  | .Variable => "Variable"
  | .Const => "Const"

/-- Vec::join with a separator, as used by serialize_signature. -/
def joinSep (sep : String) : List String → String
  | [] => ""
  | [x] => x
  | x :: y :: rest => x ++ sep ++ joinSep sep (y :: rest)

/-- Rust bool Display: true / false. -/
def boolStr (b : Bool) : String := if b then "true" else "false"

/-- serialize_signature from hasher.rs: the four formatted parts joined
with a vertical bar. -/
def serialize_signature (s : CodeSignature) : String :=
  joinSep "|"
    ["name:" ++ s.symbol_name,
     "type:" ++ symbol_type_to_string s.symbol_type,
     "exported:" ++ boolStr s.is_exported,
     "signature:" ++ s.signature_text]

/-- generate_hash from hasher.rs: SHA-256 of the serialized signature,
hex-encoded. -/
def generate_hash (s : CodeSignature) : String :=
  sha256hex (serialize_signature s)

/-- hash from hasher.rs; now is the clock reading used for the timestamp
field (Self::current_timestamp_millis in the source). -/
def hash (s : CodeSignature) (now : Int) : SignatureHash :=
  { hash := generate_hash s, signature := s, timestamp := now }

/-- hash_many from hasher.rs: hash each signature of the batch. -/
def hash_many (sigs : List CodeSignature) (now : Int) : List SignatureHash :=
  sigs.map (fun s => hash s now)

/-- hash_text from hasher.rs: SHA-256 of the raw text, hex-encoded. -/
def hash_text (signature_text : String) : String :=
  sha256hex signature_text

/-- compare from hasher.rs: exact string equality. -/
def compare (hash1 hash2 : String) : Bool := hash1 == hash2

end SignatureHasher

/-! ## normalize_text (crates/core/src/ast/analyzer.rs, AstAnalyzerInternal) -/

/-- The replace chain applied after the regex passes, in source order
(analyzer.rs lines 150-167). -/
def punctReplaces : List (String × String) :=
  [(" : ", ": "),
   (" (", "("), ("( ", "("), (" )", ")"), (") ", ")"),
   (" [", "["), ("[ ", "["), (" ]", "]"), ("] ", "]"),
   (" \x7b", "\x7b"), ("\x7b ", "\x7b"), (" \x7d", "\x7d"), ("\x7d ", "\x7d"),
   (" ,", ","), (" ;", ";"),
   (",", ", "), (";", "; ")]

/-- normalize_text from analyzer.rs: strip block comments, line comments
and import path segments, collapse whitespace runs, apply the punctuation
replace chain, and trim. -/
def normalize_text (text : String) : String :=
  let t := removeBlockComments text.data.length text.data
  let t := removeLineComments t.length t
  let t := removeImportSegments t.length t
  let t := collapseWs t.length t
  let t := punctReplaces.foldl (fun s pr => replaceAll pr.1.data pr.2.data s) t
  String.mk (trimChars t)

/-! ## DriftDetector (crates/core/src/ast/drift.rs) -/

/-- Key-presence test on an association list. -/
def containsKey {α : Type} (m : List (String × α)) (k : String) : Bool :=
  m.any (fun p => p.1 == k)

/-- Lookup on an association list (first binding wins; insertAssoc and
insertStatus keep keys unique, matching HashMap semantics). -/
def lookupAssoc {α : Type} (m : List (String × α)) (k : String) : Option α :=
  match m with
  | [] => none
  | p :: rest => if p.1 == k then some p.2 else lookupAssoc rest k

/-- HashMap::insert: overwrite the binding when the key is present,
otherwise add it. -/
def insertAssoc {α : Type} (m : List (String × α)) (k : String) (v : α) :
    List (String × α) :=
  if containsKey m k then
    m.map (fun p => if p.1 == k then (k, v) else p)
  else
    m ++ [(k, v)]

/-- DriftDetector from drift.rs: the saved map keyed by
file_path#symbol_name. -/
structure DriftDetector where
  saved_map : List (String × SintesiMapEntry)

namespace DriftDetector

/-- DriftDetector::new from drift.rs: index the entries by
file_path#symbol_name (later duplicates overwrite, as HashMap::insert). -/
def new (entries : List SintesiMapEntry) : DriftDetector :=
  { saved_map :=
      entries.foldl
        (fun m e =>
          insertAssoc m (e.code_ref.file_path ++ "#" ++ e.code_ref.symbol_name) e)
        [] }

/-- check_signature from drift.rs.  The timestamp argument of the hasher
does not influence the hash field (claim C1), so the embedded call fixes
it at 0. -/
def check_signature (det : DriftDetector) (file_path : String)
    (signature : CodeSignature) : DriftStatus :=
  let key := file_path ++ "#" ++ signature.symbol_name
  match lookupAssoc det.saved_map key with
  | some saved_entry =>
    let new_hash := (SignatureHasher.hash signature 0).hash
    if new_hash = saved_entry.code_signature_hash then .InSync
    else .Drifted saved_entry.code_signature_hash new_hash
  | none => .NotTracked

/-- The accumulator of the first loop of check_file: the status map under
construction and the three per-status counters. -/
structure FileScan where
  status : List (String × DriftStatus)
  in_sync : Nat
  drifted : Nat
  not_tracked : Nat

/-- Insert into the symbol_status map with HashMap::insert semantics. -/
def insertStatus (m : List (String × DriftStatus)) (k : String)
    (v : DriftStatus) : List (String × DriftStatus) :=
  insertAssoc m k v

/-- The first loop of check_file: classify each current signature, bump
the counter its status selects (the Removed arm of the source match is an
explicit no-increment, marked should-not-happen there), and record the
status under file_path#symbol_name. -/
def scanSignatures (det : DriftDetector) (fp : String) :
    List CodeSignature → FileScan → FileScan
  | [], acc => acc
  | s :: rest, acc =>
    match check_signature det fp s with
    | .InSync =>
      scanSignatures det fp rest
        ⟨insertStatus acc.status (fp ++ "#" ++ s.symbol_name) .InSync,
         acc.in_sync + 1, acc.drifted, acc.not_tracked⟩
    | .Drifted o n =>
      scanSignatures det fp rest
        ⟨insertStatus acc.status (fp ++ "#" ++ s.symbol_name) (.Drifted o n),
         acc.in_sync, acc.drifted + 1, acc.not_tracked⟩
    | .NotTracked =>
      scanSignatures det fp rest
        ⟨insertStatus acc.status (fp ++ "#" ++ s.symbol_name) .NotTracked,
         acc.in_sync, acc.drifted, acc.not_tracked + 1⟩
    | .Removed =>
      scanSignatures det fp rest
        ⟨insertStatus acc.status (fp ++ "#" ++ s.symbol_name) .Removed,
         acc.in_sync, acc.drifted, acc.not_tracked⟩

/-- The accumulator of the second loop of check_file. -/
structure RemovedScan where
  status : List (String × DriftStatus)
  removed : Nat

/-- The second loop of check_file: every saved key that starts with the
file path (the source tests the bare path, with no # separator appended)
and was not visited by the first loop is marked Removed. -/
def scanRemoved (fp : String) :
    List (String × SintesiMapEntry) → RemovedScan → RemovedScan
  | [], acc => acc
  | (key, _) :: rest, acc =>
    if charsStart fp.data key.data && !containsKey acc.status key then
      scanRemoved fp rest
        { status := insertStatus acc.status key .Removed, removed := acc.removed + 1 }
    else
      scanRemoved fp rest acc

/-- check_file from drift.rs. -/
def check_file (det : DriftDetector) (file_path : String)
    (signatures : List CodeSignature) : DriftResult :=
  let s1 := scanSignatures det file_path signatures ⟨[], 0, 0, 0⟩
  let s2 := scanRemoved file_path det.saved_map ⟨s1.status, 0⟩
  { total_symbols := signatures.length
    in_sync := s1.in_sync
    drifted := s1.drifted
    not_tracked := s1.not_tracked
    removed := s2.removed
    symbol_status := s2.status }

end DriftDetector

namespace DriftResult

/-- has_drift from drift.rs. -/
def has_drift (r : DriftResult) : Bool :=
  decide (r.drifted > 0) || decide (r.removed > 0)

/-- summary from drift.rs. -/
def summary (r : DriftResult) : String :=
  if !r.has_drift then
    "✓ All " ++ Nat.repr r.in_sync ++ " symbols are in sync"
  else
    "⚠ Drift detected: " ++ Nat.repr r.drifted ++ " drifted, " ++
      Nat.repr r.removed ++ " removed, " ++ Nat.repr r.in_sync ++ " in sync"

end DriftResult

/-! ## Symbol extraction

Two extractors exist in the repository: the oxc-based SymbolExtractor of
crates/core/src/ast/analyzer.rs and the swc-based SignatureCollector of
src/rust-core/src/ast_analyzer.rs.  The syntax trees are embedded as the
fragments these visitors consume: a program is a list of top-level
statements, a statement is a declaration either bare or wrapped in a
named-export or default-export node, and source-span slices are carried on
the nodes as the text the visitor would extract from them. -/

/-- TypeScript accessibility modifiers. -/
inductive Accessibility where
  | publicAcc
  | protectedAcc
  | privateAcc
deriving DecidableEq, Repr

/-- A class member key as the oxc visitor distinguishes them: a plain
static identifier, a hash-prefixed private identifier, or anything
else (computed, string or numeric keys). -/
inductive PropKey where
  | staticIdent (name : String)
  | privateIdent (name : String)
  | otherKey
deriving DecidableEq, Repr

/-- An oxc PropertyDefinition as read by extract_class_signature. -/
structure OxcProp where
  key : PropKey
  isStatic : Bool
  isReadonly : Bool
  typeAnnText : Option String
  accessibility : Option Accessibility
deriving Repr

/-- An oxc MethodDefinition as read by extract_class_signature; the text
field is the source slice of the whole method span. -/
structure OxcMethod where
  key : PropKey
  methodText : String
  accessibility : Option Accessibility
deriving Repr

/-- An oxc ClassElement. -/
inductive OxcClassElement where
  | propEl (p : OxcProp)
  | methodEl (m : OxcMethod)
  | otherEl
deriving Repr

/-- An oxc Class as read by the extractor. -/
structure OxcClass where
  id : Option String
  typeParamsText : Option String
  body : List OxcClassElement
deriving Repr

/-- SymbolInfo from analyzer.rs. -/
structure SymbolInfo where
  name : String
  symbol_type : SymbolType
  signature : String
  is_exported : Bool
  file_path : String
deriving DecidableEq, Repr

/-- The strip of a leading colon-space from an extracted type annotation
slice (type_text.strip of the colon-space pattern in analyzer.rs). -/
def stripAnn (t : String) : String :=
  if charsStart [':', ' '] t.data then String.mk (t.data.drop 2) else t

/-- The text before the first opening brace, when one exists (the
method-signature truncation of analyzer.rs). -/
def beforeBrace : List Char → Option (List Char)
  | [] => none
  | c :: rest =>
    if c == '\x7b' then some []
    else (beforeBrace rest).map (fun l => c :: l)

/-- The method signature slice: everything before the body brace, trimmed,
or the whole trimmed text for a bodiless method. -/
def sigPartOf (t : String) : String :=
  match beforeBrace t.data with
  | some before => String.mk (trimChars before)
  | none => String.mk (trimChars t.data)

/-- The contribution of one property to the synthesized class signature in
analyzer.rs: only static-identifier keys are considered, names beginning
with an underscore are skipped, modifiers and the declared (or any)
type are rendered.  The accessibility field is never consulted. -/
def renderProp (p : OxcProp) : Option String :=
  match p.key with
  | .staticIdent name =>
    if charsStart ['_'] name.data then none
    else
      some ((if p.isStatic then "static " else "") ++
            (if p.isReadonly then "readonly " else "") ++
            name ++
            (match p.typeAnnText with
             | some t => ": " ++ stripAnn t
             | none => ": any"))
  | _ => none

/-- The contribution of one method to the synthesized class signature in
analyzer.rs: only static-identifier keys, names beginning with an
underscore skipped, the span truncated at the body brace.  The
accessibility field is never consulted. -/
def renderMethod (m : OxcMethod) : Option String :=
  match m.key with
  | .staticIdent name =>
    if charsStart ['_'] name.data then none
    else some (sigPartOf m.methodText)
  | _ => none

/-- The contribution of one class element in analyzer.rs (other elements,
such as accessors and static blocks, contribute nothing). -/
def renderElement : OxcClassElement → Option String
  | .propEl p => renderProp p
  | .methodEl m => renderMethod m
  | .otherEl => none

/-- extract_class_signature from analyzer.rs: the synthesized header,
type parameters, and the semicolon-joined member renderings. -/
def extract_class_signature (cls : OxcClass) (class_name : String) : String :=
  "class " ++ class_name ++
  (match cls.typeParamsText with | some t => t | none => "") ++
  " \x7b " ++
  SignatureHasher.joinSep "; " (cls.body.filterMap renderElement) ++
  " \x7d"

/-- An oxc declaration as the SymbolExtractor visitor dispatches on it;
the signature texts are the source slices its span arithmetic produces. -/
inductive ODecl where
  | fnD (id : Option String) (sigText : String)
  | clsD (c : OxcClass)
  | ifaceD (name : String) (sigText : String)
  | aliasD (name : String) (sigText : String)
  | enumD (name : String) (sigText : String)
  | varD (isConst : Bool) (declarators : List (Option String × String))
deriving Repr

/-- A top-level statement as seen by the oxc visitor: a bare declaration,
or a declaration wrapped in a named-export or default-export node. -/
inductive OStmt where
  | plain (d : ODecl)
  | exportNamed (d : ODecl)
  | exportDefault (d : ODecl)
deriving Repr

/-- The symbols the oxc SymbolExtractor records for one declaration
visited with the given export-context flag: every named declaration is
pushed, with is_exported set from the flag (analyzer.rs visit_function,
visit_class, visit_ts_interface_declaration, visit_ts_type_alias_declaration,
visit_ts_enum_declaration, visit_variable_declaration). -/
def visitDecl (fp : String) (exp : Bool) : ODecl → List SymbolInfo
  | .fnD id sig =>
    match id with
    | some n => [⟨n, .Function, sig, exp, fp⟩]
    | none => []
  | .clsD c =>
    match c.id with
    | some n => [⟨n, .Class, extract_class_signature c n, exp, fp⟩]
    | none => []
  | .ifaceD n sig => [⟨n, .Interface, sig, exp, fp⟩]
  | .aliasD n sig => [⟨n, .TypeAlias, sig, exp, fp⟩]
  | .enumD n sig => [⟨n, .Enum, sig, exp, fp⟩]
  | .varD isConst decls =>
    decls.filterMap (fun d =>
      match d.1 with
      | some n => some ⟨n, if isConst then .Const else .Variable, d.2, exp, fp⟩
      | none => none)

/-- The oxc SymbolExtractor over a program: the export-context flag is
true exactly while walking an export wrapper (analyzer.rs
visit_export_named_declaration / visit_export_default_declaration). -/
def extractSymbols (fp : String) : List OStmt → List SymbolInfo
  | [] => []
  | .plain d :: rest => visitDecl fp false d ++ extractSymbols fp rest
  | .exportNamed d :: rest => visitDecl fp true d ++ extractSymbols fp rest
  | .exportDefault d :: rest => visitDecl fp true d ++ extractSymbols fp rest

/-! ### The swc-based SignatureCollector (src/rust-core/src/ast_analyzer.rs) -/

/-- An swc ClassProp as read by extract_class_signature there; keyName is
the resolved identifier or string key (none for computed keys). -/
structure SwcProp where
  keyName : Option String
  typeAnnText : String
  accessibility : Option Accessibility
deriving Repr

/-- An swc class Method as read there. -/
structure SwcMethod where
  keyName : Option String
  paramsText : List String
  returnTypeText : String
  accessibility : Option Accessibility
deriving Repr

/-- An swc ClassMember. -/
inductive SwcClassMember where
  | methodM (m : SwcMethod)
  | propM (p : SwcProp)
  | otherM
deriving Repr

/-- An swc Class body. -/
structure SwcClass where
  body : List SwcClassMember
deriving Repr

/-- is_member_private from ast_analyzer.rs. -/
def is_member_private (acc : Option Accessibility) : Bool :=
  match acc with
  | some .privateAcc => true
  | _ => false

/-- The rendering of one swc property, when not filtered out: name (with
the computed-key fallback) and type annotation text.  Name spelling is
never consulted. -/
def renderSwcProp (p : SwcProp) : Option String :=
  if is_member_private p.accessibility then none
  else
    some ((match p.keyName with | some n => n | none => "<computed>") ++
          ": " ++ p.typeAnnText)

/-- The rendering of one swc method, when not filtered out: name, joined
parameter texts, and return type text.  Name spelling is never
consulted. -/
def renderSwcMethod (m : SwcMethod) : Option String :=
  if is_member_private m.accessibility then none
  else
    some ((match m.keyName with | some n => n | none => "<computed>") ++
          "(" ++ SignatureHasher.joinSep ", " m.paramsText ++ "): " ++
          m.returnTypeText)

/-- The contribution of one swc class member (properties and methods are
collected into separate vectors by the source; the per-member filter is
the same). -/
def renderSwcMember : SwcClassMember → Option String
  | .methodM m => renderSwcMethod m
  | .propM p => renderSwcProp p
  | .otherM => none

/-- The synthesized swc class signature: properties first, then methods,
each semicolon-joined, in the format string of ast_analyzer.rs. -/
def swcClassSignature (cls : SwcClass) (name : String) : String :=
  "class " ++ name ++ " \x7b " ++
  SignatureHasher.joinSep "; "
    (cls.body.filterMap (fun m => match m with | .propM p => renderSwcProp p | _ => none)) ++
  "; " ++
  SignatureHasher.joinSep "; "
    (cls.body.filterMap (fun m => match m with | .methodM mm => renderSwcMethod mm | _ => none)) ++
  " \x7d"

/-- An swc declaration as the SignatureCollector dispatches on it. -/
inductive SDecl where
  | sfn (name : String) (sigText : String)
  | scls (name : String) (c : SwcClass)
  | siface (name : String) (sigText : String)
  | salias (name : String) (sigText : String)
  | senum (name : String) (sigText : String)
  | svar (isConst : Bool) (declarators : List (Option String × String))
deriving Repr

/-- An swc module item: a bare declaration, an export declaration, or one
of the default-export forms the collector handles. -/
inductive SStmt where
  | plain (d : SDecl)
  | exportDecl (d : SDecl)
  | exportDefaultFn (name : Option String) (sigText : String)
  | exportDefaultCls (name : Option String) (c : SwcClass)
  | exportDefaultIface (name : String) (sigText : String)
deriving Repr

/-- extract_class_signature of ast_analyzer.rs as a list of produced
signatures: it returns early, recording nothing, unless the class is
exported or the collector is inside an export node. -/
def swcExtractClass (inside : Bool) (c : SwcClass) (name : String)
    (is_exported : Bool) : List CodeSignature :=
  if !is_exported && !inside then []
  else [⟨name, .Class, normalize_text (swcClassSignature c name), is_exported⟩]

/-- The signatures the swc SignatureCollector records for one declaration
visited with the given export-context flag: every visit method returns
early, recording nothing, when the flag is false (ast_analyzer.rs
visit_fn_decl, visit_class_decl via the helper, visit_ts_interface_decl,
visit_ts_type_alias_decl, visit_ts_enum_decl, visit_var_decl); variable
declarators are pushed with is_exported hard-coded to true.  The
recorded text is written here through the oxc-side normalize_text rather
than a second embedding of the slightly different swc-side regex
normalizer; every theorem about this collector concerns only whether a
symbol is recorded, never the recorded text, so the substitution is
immaterial to them. -/
def collectDecl (inside : Bool) : SDecl → List CodeSignature
  | .sfn n sig =>
    if !inside then [] else [⟨n, .Function, normalize_text sig, inside⟩]
  | .scls n c => swcExtractClass inside c n inside
  | .siface n sig =>
    if !inside then [] else [⟨n, .Interface, normalize_text sig, inside⟩]
  | .salias n sig =>
    if !inside then [] else [⟨n, .TypeAlias, normalize_text sig, inside⟩]
  | .senum n sig =>
    if !inside then [] else [⟨n, .Enum, normalize_text sig, inside⟩]
  | .svar isConst decls =>
    if !inside then []
    else
      decls.filterMap (fun d =>
        match d.1 with
        | some n =>
          some ⟨n, if isConst then .Const else .Variable, normalize_text d.2, true⟩
        | none => none)

/-- The swc SignatureCollector over a module: the export-context flag is
true exactly while walking an export node; the default-export forms push
directly with the default-name fallback. -/
def collectModule : List SStmt → List CodeSignature
  | [] => []
  | .plain d :: rest => collectDecl false d ++ collectModule rest
  | .exportDecl d :: rest => collectDecl true d ++ collectModule rest
  | .exportDefaultFn name sig :: rest =>
    ⟨(match name with | some n => n | none => "default"), .Function,
      normalize_text sig, true⟩ :: collectModule rest
  | .exportDefaultCls name c :: rest =>
    swcExtractClass true c (match name with | some n => n | none => "default")
      true ++ collectModule rest
  | .exportDefaultIface n sig :: rest =>
    ⟨n, .Interface, normalize_text sig, true⟩ :: collectModule rest

/-! ## Auxiliary definitions used by the statements -/

/-- Is a drift status the Removed tag? -/
def isRemovedStatus : DriftStatus → Bool
  | .Removed => true
  | _ => false

/-- The number of Removed entries in a status map. -/
def countRemoved : List (String × DriftStatus) → Nat
  | [] => 0
  | p :: rest => (if isRemovedStatus p.2 then 1 else 0) + countRemoved rest

/-- A ledger entry for symbol baz of file a.tsx: a different file from
a.ts, though a.ts is a character prefix of its path. -/
def entX : SintesiMapEntry :=
  { id := "id1"
    code_ref := { file_path := "a.tsx", symbol_name := "baz" }
    code_signature_hash := "h1"
    code_signature_text := none
    doc_ref_file_path := "doc.md"
    last_updated := 0 }

/-- A class whose only member is a property with declared private
accessibility and no underscore in its name. -/
def vaultClass : OxcClass :=
  { id := some "Vault"
    typeParamsText := none
    body := [.propEl
      { key := .staticIdent "secret"
        isStatic := false
        isReadonly := false
        typeAnnText := some ": string"
        accessibility := some .privateAcc }] }

/-- The name under which the oxc class-member renderer looks a member up:
the static-identifier key, when the member has one. -/
def oxcElementName : OxcClassElement → Option String
  | .propEl p =>
    match p.key with
    | .staticIdent n => some n
    | _ => none
  | .methodEl m =>
    match m.key with
    | .staticIdent n => some n
    | _ => none
  | .otherEl => none

/-- The declared accessibility of an swc class member. -/
def swcMemberAccess : SwcClassMember → Option Accessibility
  | .methodM m => m.accessibility
  | .propM p => p.accessibility
  | .otherM => none

/-- An swc class whose only member is a non-private property whose name
begins with an underscore. -/
def storeClass : SwcClass :=
  { body := [.propM
      { keyName := some "_cache"
        typeAnnText := "string"
        accessibility := none }] }

/-! ## Helper lemmas -/

/-- Hex rendering doubles the byte count. -/
theorem bytesToHex_length (bs : List Nat) : (bytesToHex bs).length = 2 * bs.length := by
  induction bs with
  | nil => rfl
  | cons b rest ih =>
    simp [bytesToHex, byteHex, ih]
    omega

/-- A SHA-256 digest is 32 bytes, whatever the message. -/
theorem sha256Bytes_length (m : List Nat) : (sha256Bytes m).length = 32 := by
  simp [sha256Bytes, wordBytes]

/-- A hex-encoded SHA-256 digest is 64 characters, whatever the input. -/
theorem sha256hex_length (s : String) : (sha256hex s).length = 64 := by
  show (bytesToHex (sha256Bytes (strBytes s))).length = 64
  rw [bytesToHex_length, sha256Bytes_length]

/-- The serialized signature, written out as the one format string of the
specification. -/
theorem serialize_signature_eq (s : CodeSignature) :
    SignatureHasher.serialize_signature s =
      "name:" ++ s.symbol_name ++ "|type:" ++
        SignatureHasher.symbol_type_to_string s.symbol_type ++
        "|exported:" ++ SignatureHasher.boolStr s.is_exported ++
        "|signature:" ++ s.signature_text := by
  simp only [SignatureHasher.serialize_signature, SignatureHasher.joinSep]
  rw [String.ext_iff]
  simp only [String.data_append]
  simp [List.append_assoc]

/-- check_signature classifies a current signature as InSync, Drifted or
NotTracked, never as Removed. -/
theorem check_signature_not_removed (det : DriftDetector) (fp : String)
    (s : CodeSignature) :
    isRemovedStatus (det.check_signature fp s) = false := by
  simp only [DriftDetector.check_signature]
  cases h : lookupAssoc det.saved_map (fp ++ "#" ++ s.symbol_name) with
  | none => simp [isRemovedStatus]
  | some e =>
    simp only []
    split <;> simp [isRemovedStatus]

/-- Removed-counting distributes over append. -/
theorem countRemoved_append (a b : List (String × DriftStatus)) :
    countRemoved (a ++ b) = countRemoved a + countRemoved b := by
  induction a with
  | nil => simp [countRemoved]
  | cons p rest ih => simp [countRemoved, ih, Nat.add_assoc]

/-- Inserting under an absent key is an append. -/
theorem insertAssoc_of_not_contains {α : Type} (m : List (String × α))
    (k : String) (v : α) (h : containsKey m k = false) :
    insertAssoc m k v = m ++ [(k, v)] := by
  simp [insertAssoc, h]

/-- Overwriting with a non-Removed status keeps a Removed-free map
Removed-free. -/
theorem countRemoved_replace_zero (m : List (String × DriftStatus))
    (k : String) (v : DriftStatus) (h0 : countRemoved m = 0)
    (hv : isRemovedStatus v = false) :
    countRemoved (m.map (fun p => if p.1 == k then (k, v) else p)) = 0 := by
  induction m with
  | nil => rfl
  | cons p rest ih =>
    simp only [countRemoved] at h0
    rcases Nat.add_eq_zero.mp h0 with ⟨ha, h2⟩
    have h1 : isRemovedStatus p.2 = false := by
      by_cases hp : isRemovedStatus p.2 = true
      · rw [hp] at ha; simp at ha
      · simpa using hp
    simp only [List.map_cons, countRemoved]
    rw [ih h2]
    by_cases hk : (p.1 == k) = true
    · simp [hk, hv]
    · simp only [hk]
      simp [h1]

/-- Inserting a non-Removed status keeps a Removed-free map Removed-free. -/
theorem countRemoved_insert_zero (m : List (String × DriftStatus))
    (k : String) (v : DriftStatus) (h0 : countRemoved m = 0)
    (hv : isRemovedStatus v = false) :
    countRemoved (insertAssoc m k v) = 0 := by
  by_cases hc : containsKey m k = true
  · simp only [insertAssoc, hc, if_pos]
    exact countRemoved_replace_zero m k v h0 hv
  · rw [insertAssoc_of_not_contains m k v (by simpa using hc), countRemoved_append]
    simp [countRemoved, hv, h0]

/-- The first check_file loop counts one of in_sync, drifted, not_tracked
per current signature and writes no Removed status. -/
theorem scanSignatures_spec (det : DriftDetector) (fp : String)
    (sigs : List CodeSignature) :
    ∀ acc : DriftDetector.FileScan,
      (DriftDetector.scanSignatures det fp sigs acc).in_sync +
          (DriftDetector.scanSignatures det fp sigs acc).drifted +
          (DriftDetector.scanSignatures det fp sigs acc).not_tracked =
        acc.in_sync + acc.drifted + acc.not_tracked + sigs.length ∧
      (countRemoved acc.status = 0 →
        countRemoved (DriftDetector.scanSignatures det fp sigs acc).status = 0) := by
  induction sigs with
  | nil => intro acc; simp [DriftDetector.scanSignatures]
  | cons s rest ih =>
    intro acc
    have hnr := check_signature_not_removed det fp s
    cases hst : det.check_signature fp s with
    | Removed => rw [hst] at hnr; simp [isRemovedStatus] at hnr
    | InSync =>
      rw [hst] at hnr
      simp only [DriftDetector.scanSignatures, hst]
      have h := ih ⟨DriftDetector.insertStatus acc.status
        (fp ++ "#" ++ s.symbol_name) DriftStatus.InSync,
        acc.in_sync + 1, acc.drifted, acc.not_tracked⟩
      refine ⟨?_, ?_⟩
      · rw [h.1]; simp; omega
      · intro h0
        exact h.2 (countRemoved_insert_zero _ _ _ h0 hnr)
    | Drifted oldh newh =>
      rw [hst] at hnr
      simp only [DriftDetector.scanSignatures, hst]
      have h := ih ⟨DriftDetector.insertStatus acc.status
        (fp ++ "#" ++ s.symbol_name) (DriftStatus.Drifted oldh newh),
        acc.in_sync, acc.drifted + 1, acc.not_tracked⟩
      refine ⟨?_, ?_⟩
      · rw [h.1]; simp; omega
      · intro h0
        exact h.2 (countRemoved_insert_zero _ _ _ h0 hnr)
    | NotTracked =>
      rw [hst] at hnr
      simp only [DriftDetector.scanSignatures, hst]
      have h := ih ⟨DriftDetector.insertStatus acc.status
        (fp ++ "#" ++ s.symbol_name) DriftStatus.NotTracked,
        acc.in_sync, acc.drifted, acc.not_tracked + 1⟩
      refine ⟨?_, ?_⟩
      · rw [h.1]; simp; omega
      · intro h0
        exact h.2 (countRemoved_insert_zero _ _ _ h0 hnr)

/-- The second check_file loop keeps the count of Removed statuses equal
to its removed counter. -/
theorem scanRemoved_spec (fp : String)
    (saved : List (String × SintesiMapEntry)) :
    ∀ acc : DriftDetector.RemovedScan,
      countRemoved acc.status = acc.removed →
      countRemoved (DriftDetector.scanRemoved fp saved acc).status =
        (DriftDetector.scanRemoved fp saved acc).removed := by
  induction saved with
  | nil => intro acc h; simpa [DriftDetector.scanRemoved] using h
  | cons p rest ih =>
    intro acc h
    rcases p with ⟨key, e⟩
    simp only [DriftDetector.scanRemoved]
    by_cases hc : (charsStart fp.data key.data && !containsKey acc.status key) = true
    · rw [if_pos hc]
      apply ih
      have hnc : containsKey acc.status key = false := by
        have hb := (Bool.and_eq_true _ _).mp hc
        simpa using hb.2
      simp only [DriftDetector.insertStatus]
      rw [insertAssoc_of_not_contains _ _ _ hnc, countRemoved_append]
      simp [countRemoved, isRemovedStatus, h]
    · rw [if_neg hc]
      exact ih acc h

/-! ## Claim theorems -/

/-- C1: SignatureHasher::hash produces exactly the lowercase hex SHA-256
digest (64 characters) of the canonical string
name:(symbol name)|type:(kind name)|exported:(true/false)|signature:(text),
where the kind name is one of Function, Class, Interface, TypeAlias, Enum,
Variable, Const; the hash field depends on the four identifying fields
only and never on the timestamp argument. -/
theorem C1_hash_is_canonical_sha256 (sig : CodeSignature) (now : Int) :
    (SignatureHasher.hash sig now).hash =
      sha256hex ("name:" ++ sig.symbol_name ++ "|type:" ++
        SignatureHasher.symbol_type_to_string sig.symbol_type ++
        "|exported:" ++ (if sig.is_exported then "true" else "false") ++
        "|signature:" ++ sig.signature_text) ∧
    SignatureHasher.symbol_type_to_string sig.symbol_type ∈
      ["Function", "Class", "Interface", "TypeAlias", "Enum", "Variable",
       "Const"] ∧
    (SignatureHasher.hash sig now).hash.length = 64 ∧
    ∀ now2 : Int,
      (SignatureHasher.hash sig now).hash =
        (SignatureHasher.hash sig now2).hash := by
  refine ⟨?_, ?_, sha256hex_length _, fun now2 => rfl⟩
  · show SignatureHasher.generate_hash sig = _
    unfold SignatureHasher.generate_hash
    rw [serialize_signature_eq]
    rfl
  · cases h : sig.symbol_type <;>
      simp [SignatureHasher.symbol_type_to_string]

/-- C2: drift classification of a current signature is by ledger lookup
on the key file_path#symbol_name: an absent key gives NotTracked (a valid
result, not an error), a matching stored hash gives InSync, a differing
hash gives Drifted carrying the stored hash as old and the freshly
computed hash as new. -/
theorem C2_check_signature_classification (entries : List SintesiMapEntry)
    (fp : String) (sig : CodeSignature) :
    (lookupAssoc (DriftDetector.new entries).saved_map
        (fp ++ "#" ++ sig.symbol_name) = none →
      (DriftDetector.new entries).check_signature fp sig = .NotTracked) ∧
    (∀ e : SintesiMapEntry,
      lookupAssoc (DriftDetector.new entries).saved_map
          (fp ++ "#" ++ sig.symbol_name) = some e →
      ((SignatureHasher.hash sig 0).hash = e.code_signature_hash →
        (DriftDetector.new entries).check_signature fp sig = .InSync) ∧
      ((SignatureHasher.hash sig 0).hash ≠ e.code_signature_hash →
        (DriftDetector.new entries).check_signature fp sig =
          .Drifted e.code_signature_hash (SignatureHasher.hash sig 0).hash)) := by
  constructor
  · intro h
    simp [DriftDetector.check_signature, h]
  · intro e he
    constructor
    · intro hh
      simp [DriftDetector.check_signature, he, hh]
    · intro hh
      simp [DriftDetector.check_signature, he, hh]

/-- Witness for C2 at a concrete input: the empty ledger misses the key
and the classification is NotTracked, not an error. -/
theorem C2_witness :
    lookupAssoc (DriftDetector.new []).saved_map ("a.ts" ++ "#" ++ "foo") =
      none ∧
    (DriftDetector.new []).check_signature "a.ts"
      ⟨"foo", .Function, "function foo(): void", true⟩ = .NotTracked := by
  refine ⟨rfl, ?_⟩
  exact (C2_check_signature_classification [] "a.ts"
    ⟨"foo", .Function, "function foo(): void", true⟩).1 rfl

/-- C10: check_file counts what it classifies: total_symbols is the
number of current signatures, the three current-side counters sum to it
(check_signature never yields Removed for a current signature), and the
removed counter equals the number of Removed entries of the returned
status map. -/
theorem C10_check_file_counting (det : DriftDetector) (fp : String)
    (sigs : List CodeSignature) :
    (det.check_file fp sigs).total_symbols = sigs.length ∧
    (det.check_file fp sigs).in_sync + (det.check_file fp sigs).drifted +
        (det.check_file fp sigs).not_tracked =
      (det.check_file fp sigs).total_symbols ∧
    (det.check_file fp sigs).removed =
      countRemoved (det.check_file fp sigs).symbol_status := by
  have h1 := scanSignatures_spec det fp sigs ⟨[], 0, 0, 0⟩
  have hz : countRemoved
      (DriftDetector.scanSignatures det fp sigs ⟨[], 0, 0, 0⟩).status = 0 :=
    h1.2 rfl
  have h2 := scanRemoved_spec fp det.saved_map
    ⟨(DriftDetector.scanSignatures det fp sigs ⟨[], 0, 0, 0⟩).status, 0⟩
    (by simpa using hz)
  refine ⟨rfl, ?_, ?_⟩
  · have h3 := h1.1
    simp at h3
    exact h3
  · exact h2.symm

/-- C5: the removed-symbols loop evaluated where the checked path is a
mere character prefix of another tracked file's path: with the ledger
holding only a.tsx#baz and no current signatures for a.ts, check_file of
a.ts marks a.tsx#baz Removed, because the source matches saved keys with
starts_with on the bare file path, without the # separator the claim and
the specification require. -/
theorem C5_cross_file_removed_evaluation :
    (DriftDetector.check_file (DriftDetector.new [entX]) "a.ts" []).removed
      = 1 ∧
    lookupAssoc
      (DriftDetector.check_file (DriftDetector.new [entX]) "a.ts"
        []).symbol_status "a.tsx#baz" = some .Removed := by
  constructor <;> rfl

/-- C9: the one-line summary is the check-mark sentence with the in-sync
count when nothing drifted and nothing was removed, and otherwise the
warning sentence with the drifted, removed and in-sync counts. -/
theorem C9_summary_format (r : DriftResult) :
    (r.drifted = 0 ∧ r.removed = 0 →
      r.summary = "✓ All " ++ Nat.repr r.in_sync ++ " symbols are in sync") ∧
    (r.drifted > 0 ∨ r.removed > 0 →
      r.summary = "⚠ Drift detected: " ++ Nat.repr r.drifted ++
        " drifted, " ++ Nat.repr r.removed ++ " removed, " ++
        Nat.repr r.in_sync ++ " in sync") := by
  constructor
  · rintro ⟨h1, h2⟩
    simp [DriftResult.summary, DriftResult.has_drift, h1, h2]
  · intro h
    have hd : r.has_drift = true := by
      simp only [DriftResult.has_drift, Bool.or_eq_true, decide_eq_true_eq]
      exact h
    simp [DriftResult.summary, hd]

/-- Witness for C9 at concrete results: one fully in-sync, one with
drifted and removed symbols. -/
theorem C9_witness :
    DriftResult.summary ⟨5, 5, 0, 0, 0, []⟩ =
      "✓ All " ++ Nat.repr 5 ++ " symbols are in sync" ∧
    DriftResult.summary ⟨4, 1, 2, 0, 1, []⟩ =
      "⚠ Drift detected: " ++ Nat.repr 2 ++ " drifted, " ++ Nat.repr 1 ++
        " removed, " ++ Nat.repr 1 ++ " in sync" := by
  exact ⟨(C9_summary_format ⟨5, 5, 0, 0, 0, []⟩).1 ⟨rfl, rfl⟩,
    (C9_summary_format ⟨4, 1, 2, 0, 1, []⟩).2 (Or.inl (by decide))⟩

/-- C3: the pipeline normalizer evaluated at the failing input: a second
application of normalize_text to the output for a comma-separated input
inserts a second space after the comma, so normalization is not
idempotent, against the stated contract. -/
theorem C3_normalize_not_idempotent_evaluation :
    normalize_text "a,b" = "a, b" ∧
    normalize_text (normalize_text "a,b") = "a,  b" ∧
    normalize_text (normalize_text "a,b") ≠ normalize_text "a,b" := by
  refine ⟨rfl, rfl, by decide⟩

set_option maxRecDepth 100000 in
/-- C4: two raw signatures differing only in the whitespace after a comma
evaluated through the normalizer: the outputs differ (one or two spaces
after the comma), so whitespace-insensitive canonicalization fails and the
two hash differently. -/
theorem C4_whitespace_invariance_fails_evaluation :
    normalize_text "f(a,b)" = "f(a, b)" ∧
    normalize_text "f(a, b)" = "f(a,  b)" ∧
    normalize_text "f(a,b)" ≠ normalize_text "f(a, b)" ∧
    SignatureHasher.hash_text (normalize_text "f(a,b)") ≠
      SignatureHasher.hash_text (normalize_text "f(a, b)") := by
  refine ⟨rfl, rfl, by decide, by decide⟩

/-- C8: normalization and the hashing entry points are total over
arbitrary strings and signatures: every input, the empty string included,
yields a result; the digest always has 64 characters; batch hashing
yields exactly one result per input. -/
theorem C8_totality (s : String) (sig : CodeSignature)
    (sigs : List CodeSignature) (now : Int) :
    (SignatureHasher.hash_text s).length = 64 ∧
    (SignatureHasher.hash_text (normalize_text s)).length = 64 ∧
    (SignatureHasher.hash sig now).hash.length = 64 ∧
    (SignatureHasher.hash_many sigs now).length = sigs.length ∧
    normalize_text "" = "" := by
  refine ⟨sha256hex_length _, sha256hex_length _, sha256hex_length _, ?_, rfl⟩
  simp [SignatureHasher.hash_many]

/-- Every symbol the oxc extractor records for a declaration carries the
export-context flag it was visited under. -/
theorem visitDecl_is_exported (fp : String) (e : Bool) (d : ODecl)
    (sym : SymbolInfo) (h : sym ∈ visitDecl fp e d) : sym.is_exported = e := by
  cases d with
  | fnD id sig =>
    cases id with
    | none => simp [visitDecl] at h
    | some n =>
      simp [visitDecl] at h
      rw [h]
  | clsD c =>
    cases hid : c.id with
    | none => simp [visitDecl, hid] at h
    | some n =>
      simp [visitDecl, hid] at h
      rw [h]
  | ifaceD n sig =>
    simp [visitDecl] at h
    rw [h]
  | aliasD n sig =>
    simp [visitDecl] at h
    rw [h]
  | enumD n sig =>
    simp [visitDecl] at h
    rw [h]
  | varD isConst decls =>
    simp only [visitDecl, List.mem_filterMap] at h
    obtain ⟨d1, _, hd1⟩ := h
    cases hfst : d1.1 with
    | none => rw [hfst] at hd1; simp at hd1
    | some n =>
      rw [hfst] at hd1
      simp at hd1
      rw [← hd1]

/-- The swc collector records nothing for a declaration visited outside
export context. -/
theorem collectDecl_false (d : SDecl) : collectDecl false d = [] := by
  cases d <;> simp [collectDecl, swcExtractClass]

/-- is_member_private is true exactly at declared private
accessibility. -/
theorem is_member_private_iff (acc : Option Accessibility) :
    is_member_private acc = true ↔ acc = some .privateAcc := by
  cases acc with
  | none => simp [is_member_private]
  | some a => cases a <;> simp [is_member_private]

/-- C6 counterexample: a function declaration outside any export wrapper,
fed to the oxc extractor, produces a recorded symbol (flagged
unexported) rather than no symbol. -/
theorem C6_counterexample :
    extractSymbols "f.ts"
        [.plain (.fnD (some "foo") "function foo(): void")] =
      [⟨"foo", .Function, "function foo(): void", false, "f.ts"⟩] ∧
    extractSymbols "f.ts"
        [.plain (.fnD (some "foo") "function foo(): void")] ≠ [] := by
  exact ⟨rfl, by decide⟩

/-- C6 amended: the swc collector records a declaration only in export
context, but the oxc extractor records every named declaration regardless
of export context — the flag only labels the symbol: extraction with the
flag on is extraction with the flag off relabelled, and symbols of a
wrapper-free program are all recorded with is_exported false. -/
theorem C6_export_context_amended :
    (∀ (fp : String) (d : ODecl),
      visitDecl fp true d =
        (visitDecl fp false d).map (fun sym => { sym with is_exported := true })) ∧
    (∀ (fp : String) (stmts : List OStmt),
      (∀ s ∈ stmts, ∃ d, s = OStmt.plain d) →
      ∀ sym ∈ extractSymbols fp stmts, sym.is_exported = false) ∧
    (∀ stmts : List SStmt,
      (∀ s ∈ stmts, ∃ d, s = SStmt.plain d) →
      collectModule stmts = []) := by
  refine ⟨?_, ?_, ?_⟩
  · intro fp d
    cases d with
    | fnD id sig => cases id <;> rfl
    | clsD c => cases hid : c.id <;> simp [visitDecl, hid]
    | ifaceD n sig => rfl
    | aliasD n sig => rfl
    | enumD n sig => rfl
    | varD isConst decls =>
      simp only [visitDecl, List.map_filterMap]
      apply List.filterMap_congr
      intro x _
      cases x.1 <;> rfl
  · intro fp stmts
    induction stmts with
    | nil => intro _ sym h; simp [extractSymbols] at h
    | cons s rest ih =>
      intro hall sym h
      obtain ⟨d, rfl⟩ := hall s (List.mem_cons_self s _)
      simp only [extractSymbols] at h
      rcases List.mem_append.mp h with h1 | h2
      · exact visitDecl_is_exported fp false d sym h1
      · exact ih (fun t ht => hall t (List.mem_cons_of_mem _ ht)) sym h2
  · intro stmts
    induction stmts with
    | nil => intro _; rfl
    | cons s rest ih =>
      intro hall
      obtain ⟨d, rfl⟩ := hall s (List.mem_cons_self s _)
      have hrest := ih (fun t ht => hall t (List.mem_cons_of_mem _ ht))
      simp [collectModule, hrest, collectDecl_false]

/-- Witness for C6 amended at concrete inputs: an interface in a
wrapper-free program is recorded unexported by the oxc extractor, and a
wrapper-free program yields nothing from the swc collector. -/
theorem C6_witness :
    (⟨"I", SymbolType.Interface, "interface I", false, "g.ts"⟩ :
      SymbolInfo).is_exported = false ∧
    collectModule [SStmt.plain (SDecl.sfn "h" "function h(): void")] = [] := by
  constructor
  · exact C6_export_context_amended.2.1 "g.ts"
      [OStmt.plain (ODecl.ifaceD "I" "interface I")]
      (fun s hs => ⟨ODecl.ifaceD "I" "interface I", by simpa using hs⟩)
      ⟨"I", SymbolType.Interface, "interface I", false, "g.ts"⟩
      (by simp [extractSymbols, visitDecl])
  · exact C6_export_context_amended.2.2
      [SStmt.plain (SDecl.sfn "h" "function h(): void")]
      (fun s hs => ⟨SDecl.sfn "h" "function h(): void", by simpa using hs⟩)

/-- C7 counterexample: the claim fails in both extractors. The oxc
extractor renders a member with declared private accessibility and no
underscore into the synthesized class signature, its name included; the
swc collector renders an underscore-named non-private member into its
synthesized class signature, its name included. -/
theorem C7_counterexample :
    vaultClass.body = [OxcClassElement.propEl
      { key := .staticIdent "secret", isStatic := false, isReadonly := false,
        typeAnnText := some ": string",
        accessibility := some .privateAcc }] ∧
    extract_class_signature vaultClass "Vault" =
      "class Vault \x7b secret: string \x7d" ∧
    subOccurs "secret".data
      (extract_class_signature vaultClass "Vault").data = true ∧
    storeClass.body = [SwcClassMember.propM
      { keyName := some "_cache", typeAnnText := "string",
        accessibility := none }] ∧
    swcClassSignature storeClass "Store" =
      "class Store \x7b _cache: string;  \x7d" ∧
    subOccurs "_cache".data (swcClassSignature storeClass "Store").data =
      true := by
  refine ⟨rfl, rfl, by decide, rfl, rfl, by decide⟩

/-- C7 amended: each extractor applies exactly one of the two exclusion
rules.  The oxc renderer drops a member precisely when it lacks a
static-identifier key or its name begins with an underscore — declared
private accessibility alone does not exclude; the swc renderer drops a
property or method precisely when its declared accessibility is
private — a leading underscore alone does not exclude. -/
theorem C7_member_filtering_amended :
    (∀ (el : OxcClassElement) (n : String),
      oxcElementName el = some n →
      (renderElement el = none ↔ charsStart ['_'] n.data = true)) ∧
    (∀ el : OxcClassElement, oxcElementName el = none →
      renderElement el = none) ∧
    (∀ m : SwcClassMember,
      renderSwcMember m = none ↔
        (swcMemberAccess m = some .privateAcc ∨ m = .otherM)) := by
  refine ⟨?_, ?_, ?_⟩
  · intro el n hn
    cases el with
    | otherEl => simp [oxcElementName] at hn
    | propEl p =>
      cases hk : p.key with
      | staticIdent m =>
        rw [show oxcElementName (.propEl p) =
          (match p.key with | .staticIdent n => some n | _ => none)
          from rfl, hk] at hn
        injection hn with hmn
        subst hmn
        by_cases hu : charsStart ['_'] m.data = true
        · simp [renderElement, renderProp, hk, hu]
        · have hu2 : charsStart ['_'] m.data = false := by simpa using hu
          simp [renderElement, renderProp, hk, hu2]
      | privateIdent m =>
        rw [show oxcElementName (.propEl p) =
          (match p.key with | .staticIdent n => some n | _ => none)
          from rfl, hk] at hn
        simp at hn
      | otherKey =>
        rw [show oxcElementName (.propEl p) =
          (match p.key with | .staticIdent n => some n | _ => none)
          from rfl, hk] at hn
        simp at hn
    | methodEl mm =>
      cases hk : mm.key with
      | staticIdent m =>
        rw [show oxcElementName (.methodEl mm) =
          (match mm.key with | .staticIdent n => some n | _ => none)
          from rfl, hk] at hn
        injection hn with hmn
        subst hmn
        by_cases hu : charsStart ['_'] m.data = true
        · simp [renderElement, renderMethod, hk, hu]
        · have hu2 : charsStart ['_'] m.data = false := by simpa using hu
          simp [renderElement, renderMethod, hk, hu2]
      | privateIdent m =>
        rw [show oxcElementName (.methodEl mm) =
          (match mm.key with | .staticIdent n => some n | _ => none)
          from rfl, hk] at hn
        simp at hn
      | otherKey =>
        rw [show oxcElementName (.methodEl mm) =
          (match mm.key with | .staticIdent n => some n | _ => none)
          from rfl, hk] at hn
        simp at hn
  · intro el hn
    cases el with
    | otherEl => rfl
    | propEl p =>
      cases hk : p.key with
      | staticIdent m =>
        rw [show oxcElementName (.propEl p) =
          (match p.key with | .staticIdent n => some n | _ => none)
          from rfl, hk] at hn
        simp at hn
      | privateIdent m => simp [renderElement, renderProp, hk]
      | otherKey => simp [renderElement, renderProp, hk]
    | methodEl mm =>
      cases hk : mm.key with
      | staticIdent m =>
        rw [show oxcElementName (.methodEl mm) =
          (match mm.key with | .staticIdent n => some n | _ => none)
          from rfl, hk] at hn
        simp at hn
      | privateIdent m => simp [renderElement, renderMethod, hk]
      | otherKey => simp [renderElement, renderMethod, hk]
  · intro m
    cases m with
    | methodM mm =>
      by_cases h : is_member_private mm.accessibility = true
      · simp [renderSwcMember, renderSwcMethod, h, swcMemberAccess,
          (is_member_private_iff mm.accessibility).mp h, is_member_private]
      · have hb : is_member_private mm.accessibility = false := by
          simpa using h
        have hne : ¬ mm.accessibility = some Accessibility.privateAcc := by
          intro hc
          rw [(is_member_private_iff mm.accessibility).mpr hc] at hb
          simp at hb
        simp [renderSwcMember, renderSwcMethod, hb, swcMemberAccess, hne]
    | propM p =>
      by_cases h : is_member_private p.accessibility = true
      · simp [renderSwcMember, renderSwcProp, h, swcMemberAccess,
          (is_member_private_iff p.accessibility).mp h, is_member_private]
      · have hb : is_member_private p.accessibility = false := by
          simpa using h
        have hne : ¬ p.accessibility = some Accessibility.privateAcc := by
          intro hc
          rw [(is_member_private_iff p.accessibility).mpr hc] at hb
          simp at hb
        simp [renderSwcMember, renderSwcProp, hb, swcMemberAccess, hne]
    | otherM => simp [renderSwcMember, swcMemberAccess]

/-- Witness for C7 amended at concrete members, in both directions: the
oxc renderer drops an underscore-named property, the swc renderer drops
a private-accessibility property, and the swc renderer keeps an
underscore-named non-private property. -/
theorem C7_witness :
    renderElement (OxcClassElement.propEl
      { key := .staticIdent "_cache", isStatic := false, isReadonly := false,
        typeAnnText := none, accessibility := none }) = none ∧
    renderSwcMember (SwcClassMember.propM
      { keyName := some "secret", typeAnnText := "string",
        accessibility := some .privateAcc }) = none ∧
    renderSwcMember (SwcClassMember.propM
      { keyName := some "_cache", typeAnnText := "string",
        accessibility := none }) ≠ none := by
  refine ⟨?_, ?_, ?_⟩
  · exact (C7_member_filtering_amended.1 (OxcClassElement.propEl
      { key := .staticIdent "_cache", isStatic := false, isReadonly := false,
        typeAnnText := none, accessibility := none }) "_cache" rfl).mpr
      (by decide)
  · exact (C7_member_filtering_amended.2.2 (SwcClassMember.propM
      { keyName := some "secret", typeAnnText := "string",
        accessibility := some .privateAcc })).mpr (Or.inl rfl)
  · intro hc
    rcases (C7_member_filtering_amended.2.2 (SwcClassMember.propM
      { keyName := some "_cache", typeAnnText := "string",
        accessibility := none })).mp hc with h | h
    · simp [swcMemberAccess] at h
    · simp at h

end Sintesi
